import Mathlib

/-!
Verification of the xpathextractor module (src/xpathextractor.py).

We shallowly embed the module's data flow. The external lxml/html5lib
engines are abstracted: an environment supplies, for each selector source
string and each document string, either an evaluation error or the list of
extracted string values (this is what `select` produces in the source).
The zip-mode padding, warning detection, parameter validation, the
per-document aggregation loop, `migrate_params`, the `select` result
dispatch and the html5lib whitespace serialization are embedded from the
source and proved against the specification's claims.
-/

namespace XPathExtractor

/-- One entry of `params["colselectors"]`: `{"colname": ..., "colxpath": ...}`. -/
structure ColSelector where
  colname : String
  colxpath : String
deriving DecidableEq, Repr

/-- The per-column extraction results of one document: for each column name
(in `colselectors` order), the list of strings its selector produced.
This is the `data` dict built in `extract_dataframe_by_zip`. -/
abbrev ColumnData := List (String × List String)

/-- The lengths `L1..Ln` of the columns' result sequences. -/
def colLengths (data : ColumnData) : List Nat :=
  data.map (fun c => c.2.length)

/-- Maximum result-sequence length over the columns (0 when there are none).
`pd.DataFrame` pads every `Series` to this length. -/
def maxLen (data : ColumnData) : Nat :=
  (colLengths data).foldr max 0

/-- A column padded with nulls (`None` in pandas) up to `n` cells, as the
`DataFrame` constructor does for a shorter `Series`. -/
def padColumn (vals : List String) (n : Nat) : List (Option String) :=
  vals.map some ++ List.replicate (n - vals.length) none

/-- The padded table `pd.DataFrame(data)`: every column padded to `maxLen`. -/
def zipTable (data : ColumnData) : List (String × List (Option String)) :=
  data.map (fun c => (c.1, padColumn c.2 (maxLen data)))

/-- `len(table)`: the number of rows of the padded table. An empty dict of
columns gives an empty frame. -/
def numRows (data : ColumnData) : Nat :=
  if data.isEmpty then 0 else maxLen data

/-- `table.iloc[-1].isnull().any()`: some cell of the last row is null.
(Out-of-range reads never occur: callers guard on `numRows ≠ 0`.) -/
def lastRowHasNull (data : ColumnData) : Bool :=
  (zipTable data).any (fun c => (c.2.getD (numRows data - 1) (some "")).isNone)

/-- `should_warn = len(table) and table.iloc[-1].isnull().any()`. -/
def should_warn (data : ColumnData) : Bool :=
  decide (numRows data ≠ 0) && lastRowHasNull data

/-- Abstract evaluation of a compiled selector against a parsed document:
`evalx selectorSource documentHtml` is either an `XPathEvalError` message or
the string values `select(tree, selector)` returns. -/
abbrev EvalFn := String → String → Except String (List String)

/-- The loop of `extract_dataframe_by_zip` that fills `data`: evaluate each
column's selector, turning the first `XPathEvalError` into a
`ColumnExtractionError (colname, message)`. -/
def selectColumns (evalx : EvalFn) (html : String) :
    List ColSelector → Except (String × String) ColumnData
  | [] => .ok []
  | c :: rest =>
    match evalx c.colxpath html with
    | .error msg => .error (c.colname, msg)
    | .ok vals =>
      match selectColumns evalx html rest with
      | .error e => .error e
      | .ok ds => .ok ((c.colname, vals) :: ds)

/-- `extract_dataframe_by_zip(html, columns_to_parse)`: evaluate every
column, pad to a rectangle, and report whether lengths differed. -/
def extract_dataframe_by_zip (evalx : EvalFn) (html : String)
    (cols : List ColSelector) :
    Except (String × String) (List (String × List (Option String)) × Bool) :=
  match selectColumns evalx html cols with
  | .error e => .error e
  | .ok data => .ok (zipTable data, should_warn data)

/-- All numbers of a list are equal. -/
def allSame (l : List Nat) : Prop := ∀ a ∈ l, ∀ b ∈ l, a = b

/- ### Basic lemmas about the padded table -/

theorem mem_colLengths_le {data : ColumnData} {x : Nat}
    (hx : x ∈ colLengths data) : x ≤ maxLen data := by
  induction data with
  | nil => simp [colLengths] at hx
  | cons d rest ih =>
    simp only [colLengths, List.map_cons, List.mem_cons] at hx
    simp only [maxLen, colLengths, List.map_cons, List.foldr_cons]
    rcases hx with h | h
    · exact h ▸ le_max_left _ _
    · exact le_trans (ih h) (le_max_right _ _)

theorem length_le_maxLen {data : ColumnData} {c : String × List String}
    (hc : c ∈ data) : c.2.length ≤ maxLen data :=
  mem_colLengths_le (List.mem_map_of_mem _ hc)

theorem maxLen_mem {data : ColumnData} (h : data ≠ []) :
    maxLen data ∈ colLengths data := by
  induction data with
  | nil => exact absurd rfl h
  | cons d rest ih =>
    simp only [maxLen, colLengths, List.map_cons, List.foldr_cons] at ih ⊢
    rcases Nat.le_total ((rest.map (fun c => c.2.length)).foldr max 0) d.2.length
      with hle | hle
    · rw [max_eq_left hle]; exact List.mem_cons_self _ _
    · rw [max_eq_right hle]
      rcases rest with _ | ⟨r, rs⟩
      · simp only [List.map_nil, List.foldr_nil] at hle ⊢
        have h0 : d.2.length = 0 := Nat.le_zero.mp hle
        simp [h0]
      · exact List.mem_cons_of_mem _ (ih (by simp))

theorem padColumn_length {vals : List String} {n : Nat} (h : vals.length ≤ n) :
    (padColumn vals n).length = n := by
  simp [padColumn, Nat.add_sub_cancel' h]

theorem padColumn_getElem_lt {vals : List String} {n i : Nat}
    (hi : i < vals.length) :
    (padColumn vals n)[i]? = some (some (vals.getD i "")) := by
  rw [padColumn, List.getElem?_append_left (by simpa using hi)]
  rw [List.getElem?_map, List.getElem?_eq_getElem hi]
  simp [List.getD, List.getElem?_eq_getElem hi]

theorem padColumn_getElem_ge {vals : List String} {n i : Nat}
    (hge : vals.length ≤ i) (hlt : i < n) :
    (padColumn vals n)[i]? = some none := by
  have hmap : (vals.map some).length = vals.length := by simp
  rw [padColumn, List.getElem?_append_right (by simpa using hge)]
  rw [hmap]
  rw [List.getElem?_replicate]
  simp [Nat.sub_lt_sub_right hge hlt]

theorem padColumn_lastCell_isNone {vals : List String} {M : Nat}
    (hM : M ≠ 0) (hle : vals.length ≤ M) :
    ((padColumn vals M).getD (M - 1) (some "")).isNone = true ↔
      vals.length < M := by
  rw [List.getD_eq_getElem?_getD]
  rcases Nat.lt_or_ge vals.length M with hlt | hge
  · rw [padColumn_getElem_ge (by omega : vals.length ≤ M - 1) (by omega : M - 1 < M)]
    simpa using hlt
  · have hidx : M - 1 < vals.length := by omega
    rw [padColumn_getElem_lt hidx]
    simp
    omega

theorem should_warn_iff {data : ColumnData} (h : data ≠ []) :
    should_warn data = true ↔ ¬ allSame (colLengths data) := by
  have hnr : numRows data = maxLen data := by
    simp [numRows, List.isEmpty_iff, h]
  constructor
  · intro hw
    rw [should_warn, Bool.and_eq_true, decide_eq_true_eq] at hw
    obtain ⟨hn0, hnull⟩ := hw
    rw [hnr] at hn0
    rw [lastRowHasNull, List.any_eq_true] at hnull
    obtain ⟨col, hcolmem, hcol⟩ := hnull
    obtain ⟨c, hc, hceq⟩ := List.mem_map.mp hcolmem
    intro hsame
    rw [← hceq] at hcol
    rw [hnr] at hcol
    have hlt : c.2.length < maxLen data :=
      (padColumn_lastCell_isNone hn0 (length_le_maxLen hc)).mp hcol
    have := hsame _ (List.mem_map_of_mem _ hc) _ (maxLen_mem h)
    omega
  · intro hns
    rw [allSame] at hns
    push_neg at hns
    obtain ⟨a, ha, b, hb, hab⟩ := hns
    have key : ∃ x ∈ colLengths data, x < maxLen data := by
      rcases Nat.lt_or_ge a b with h' | h'
      · exact ⟨a, ha, lt_of_lt_of_le h' (mem_colLengths_le hb)⟩
      · have hba : b < a := lt_of_le_of_ne h' (Ne.symm hab)
        exact ⟨b, hb, lt_of_lt_of_le hba (mem_colLengths_le ha)⟩
    obtain ⟨x, hx, hxlt⟩ := key
    have hM : maxLen data ≠ 0 := by omega
    obtain ⟨c, hc, hcx⟩ := List.mem_map.mp hx
    rw [should_warn, Bool.and_eq_true]
    refine ⟨by simp [hnr, hM], ?_⟩
    rw [lastRowHasNull, List.any_eq_true]
    refine ⟨(c.1, padColumn c.2 (maxLen data)), List.mem_map_of_mem _ hc, ?_⟩
    rw [hnr]
    exact (padColumn_lastCell_isNone hM (length_le_maxLen hc)).mpr (hcx ▸ hxlt)

theorem selectColumns_length {evalx : EvalFn} {html : String}
    {cols : List ColSelector} {data : ColumnData}
    (h : selectColumns evalx html cols = .ok data) :
    data.length = cols.length := by
  induction cols generalizing data with
  | nil => simp [selectColumns] at h; simp [← h]
  | cons c rest ih =>
    rw [selectColumns] at h
    rcases hev : evalx c.colxpath html with msg | vals <;> rw [hev] at h
    · exact absurd h (by simp)
    · rcases hrest : selectColumns evalx html rest with e | ds <;> rw [hrest] at h
      · exact absurd h (by simp)
      · cases h
        simp [ih hrest]

/-- C1: for every document and non-empty column set, `should_warn` is true
iff the selectors' result-sequence lengths are not all equal (equivalently,
by definition of `should_warn`, iff the last padded row contains a null). -/
theorem zip_should_warn_iff_lengths_differ
    (evalx : EvalFn) (html : String) (cols : List ColSelector)
    (data : ColumnData)
    (hcols : cols ≠ [])
    (hdata : selectColumns evalx html cols = .ok data) :
    extract_dataframe_by_zip evalx html cols =
      .ok (zipTable data, should_warn data) ∧
    (should_warn data = true ↔ ¬ allSame (colLengths data)) := by
  have hlen : data ≠ [] := by
    intro h0
    exact hcols (List.length_eq_zero.mp (by simpa [h0] using (selectColumns_length hdata).symm))
  exact ⟨by rw [extract_dataframe_by_zip, hdata], should_warn_iff hlen⟩

/-- C1 witness: two columns of lengths 2 and 1 over a concrete document. -/
theorem zip_should_warn_iff_lengths_differ_witness :
    extract_dataframe_by_zip
        (fun s _ => if s = "x" then .ok ["1", "2"] else .ok ["1"]) "doc"
        [⟨"a", "x"⟩, ⟨"b", "y"⟩] =
      .ok (zipTable [("a", ["1", "2"]), ("b", ["1"])],
           should_warn [("a", ["1", "2"]), ("b", ["1"])]) ∧
    (should_warn [("a", ["1", "2"]), ("b", ["1"])] = true ↔
      ¬ allSame (colLengths [("a", ["1", "2"]), ("b", ["1"])])) :=
  zip_should_warn_iff_lengths_differ _ _ _ _ (by decide) rfl

/-- C2: the padded table holds, for each column, its selector's values in
order followed by nulls up to the maximum length; every padded column has
exactly `maxLen` cells (the row count). -/
theorem zip_table_padded_cells
    (evalx : EvalFn) (html : String) (cols : List ColSelector)
    (data : ColumnData) (c : String × List String)
    (hdata : selectColumns evalx html cols = .ok data)
    (hc : c ∈ data) :
    extract_dataframe_by_zip evalx html cols =
      .ok (zipTable data, should_warn data) ∧
    (c.1, padColumn c.2 (maxLen data)) ∈ zipTable data ∧
    (padColumn c.2 (maxLen data)).length = maxLen data ∧
    (∀ i, i < c.2.length →
      (padColumn c.2 (maxLen data))[i]? = some (some (c.2.getD i ""))) ∧
    (∀ i, c.2.length ≤ i → i < maxLen data →
      (padColumn c.2 (maxLen data))[i]? = some none) := by
  refine ⟨by rw [extract_dataframe_by_zip, hdata], ?_, ?_, ?_, ?_⟩
  · exact List.mem_map_of_mem _ hc
  · exact padColumn_length (length_le_maxLen hc)
  · exact fun i hi => padColumn_getElem_lt hi
  · exact fun i hge hlt => padColumn_getElem_ge hge hlt

/-- C2 witness: the shorter column is padded with exactly one null. -/
theorem zip_table_padded_cells_witness :
    extract_dataframe_by_zip
        (fun s _ => if s = "x" then .ok ["1", "2"] else .ok ["9"]) "doc"
        [⟨"a", "x"⟩, ⟨"b", "y"⟩] =
      .ok (zipTable [("a", ["1", "2"]), ("b", ["9"])],
           should_warn [("a", ["1", "2"]), ("b", ["9"])]) ∧
    ((("b", ["9"]) : String × List String).1,
      padColumn (("b", ["9"]) : String × List String).2
        (maxLen [("a", ["1", "2"]), ("b", ["9"])])) ∈
      zipTable [("a", ["1", "2"]), ("b", ["9"])] ∧
    (padColumn (("b", ["9"]) : String × List String).2
        (maxLen [("a", ["1", "2"]), ("b", ["9"])])).length =
      maxLen [("a", ["1", "2"]), ("b", ["9"])] ∧
    (∀ i, i < (("b", ["9"]) : String × List String).2.length →
      (padColumn (("b", ["9"]) : String × List String).2
        (maxLen [("a", ["1", "2"]), ("b", ["9"])]))[i]? =
        some (some ((("b", ["9"]) : String × List String).2.getD i ""))) ∧
    (∀ i, (("b", ["9"]) : String × List String).2.length ≤ i →
        i < maxLen [("a", ["1", "2"]), ("b", ["9"])] →
      (padColumn (("b", ["9"]) : String × List String).2
        (maxLen [("a", ["1", "2"]), ("b", ["9"])]))[i]? = some none) :=
  zip_table_padded_cells _ _ _ _ _ rfl (by decide)

/- ### `extract_xpath`: validation and the multi-document loop -/

/-- The i18n messages `extract_xpath` can return instead of a table. The
interpolated error strings are carried as payload. -/
inductive XError where
  | missingColname
  | duplicateColname (name : String)
  | missingColxpath
  | invalidXPath (name : String)
  | columnExtractionError (name : String) (error : String)
deriving DecidableEq, Repr

/-- What `extract_xpath` returns: an error message, the input table passed
through unchanged (`return table`), or an output table with an optional
length-mismatch warning carrying the 1-indexed input row. -/
inductive XResult (τ : Type) where
  | err (e : XError)
  | passthrough (t : τ)
  | out (t : List (String × List (Option String))) (warnRow : Option Nat)
deriving DecidableEq

/-- The validation loop at the top of `extract_xpath`: first failing check,
in source order, over the `colselectors`; `seen` is the set of names already
added to `columns_to_parse`. `syntaxOk s` abstracts "`xpath(s)` does not
raise `XPathSyntaxError`". -/
def validate (syntaxOk : String → Bool) :
    List ColSelector → List String → Except XError Unit
  | [], _ => .ok ()
  | c :: rest, seen =>
    if c.colname = "" then .error .missingColname
    else if seen.contains c.colname then .error (.duplicateColname c.colname)
    else if c.colxpath = "" then .error .missingColxpath
    else if ¬ syntaxOk c.colxpath then .error (.invalidXPath c.colname)
    else validate syntaxOk rest (c.colname :: seen)

/-- The `for index, html in table["html"].iteritems()` loop: skip nulls,
abort on the first `ColumnExtractionError`, collect per-document tables, and
remember the first 0-based input row whose extraction set the warn flag. -/
def runLoop (evalx : EvalFn) (cols : List ColSelector) :
    List (Option String) → Nat →
    Except (String × String)
      (List (List (String × List (Option String))) × Option Nat)
  | [], _ => .ok ([], none)
  | none :: rest, i => runLoop evalx cols rest (i + 1)
  | some h :: rest, i =>
    match extract_dataframe_by_zip evalx h cols with
    | .error e => .error e
    | .ok (t, w) =>
      match runLoop evalx cols rest (i + 1) with
      | .error e => .error e
      | .ok (ts, warnIdx) => .ok (t :: ts, if w then some i else warnIdx)

/-- `pd.concat(result_tables, ignore_index=True)`: all per-document tables
share the same column names in the same order, so concatenation appends the
per-document cells column by column. -/
def concatTables (cols : List ColSelector)
    (ts : List (List (String × List (Option String)))) :
    List (String × List (Option String)) :=
  cols.map (fun c =>
    (c.colname, ts.flatMap (fun t => (t.lookup c.colname).getD [])))

/-- `extract_xpath(table, params)`. `table` is kept abstract (only its
`html` column, passed as `htmls`, is read); `syntaxOk` and `evalx` abstract
the external XPath compiler and evaluator. -/
def extract_xpath {τ : Type} (syntaxOk : String → Bool) (evalx : EvalFn)
    (table : τ) (htmls : List (Option String))
    (colselectors : List ColSelector) : XResult τ :=
  match validate syntaxOk colselectors [] with
  | .error e => .err e
  | .ok () =>
    if colselectors.isEmpty then .passthrough table
    else
      match runLoop evalx colselectors htmls 0 with
      | .error (name, msg) => .err (.columnExtractionError name msg)
      | .ok (ts, warnIdx) =>
        let outtable :=
          if ts.isEmpty then
            colselectors.map (fun c => (c.colname, ([] : List (Option String))))
          else concatTables colselectors ts
        .out outtable (warnIdx.map (· + 1))

/-- C4: a failing column-spec validation decides the whole run, whatever
the documents and whatever the evaluator does to them. -/
theorem config_error_precedes_documents
    (syntaxOk : String → Bool) (colselectors : List ColSelector) (e : XError)
    (hval : validate syntaxOk colselectors [] = .error e) :
    ∀ (τ : Type) (table : τ) (evalx : EvalFn) (htmls : List (Option String)),
      extract_xpath syntaxOk evalx table htmls colselectors = .err e := by
  intro τ table evalx htmls
  rw [extract_xpath, hval]

/-- C4 witness: a duplicate column name is reported even though the
evaluator fails on every document (the "first document would fail" case). -/
theorem config_error_precedes_documents_witness :
    extract_xpath (fun _ => true) (fun _ _ => .error "parse fail") ()
        [some "<bad"] [⟨"a", "//p"⟩, ⟨"a", "//q"⟩] =
      .err (.duplicateColname "a") :=
  config_error_precedes_documents (fun _ => true)
    [⟨"a", "//p"⟩, ⟨"a", "//q"⟩] (.duplicateColname "a") rfl
    Unit () (fun _ _ => .error "parse fail") [some "<bad"]

/-- C10: with no column selectors, `extract_xpath` returns the input table
itself, untouched, with no error and no warning, for any documents and any
evaluator. -/
theorem empty_colselectors_passthrough
    {τ : Type} (syntaxOk : String → Bool) (evalx : EvalFn)
    (table : τ) (htmls : List (Option String)) :
    extract_xpath syntaxOk evalx table htmls [] = .passthrough table := by
  rw [extract_xpath]
  rfl

/- ### First-warning and abort-on-error behaviour of the document loop -/

/-- The document at 0-based input row `i` exists (is not null) and its
zip-extraction sets the warn flag. -/
def docWarns (evalx : EvalFn) (cols : List ColSelector)
    (htmls : List (Option String)) (i : Nat) : Prop :=
  ∃ h, htmls[i]? = some (some h) ∧
    ∃ t, extract_dataframe_by_zip evalx h cols = .ok (t, true)

theorem docWarns_cons_succ (evalx : EvalFn) (cols : List ColSelector)
    (x : Option String) (rest : List (Option String)) (j : Nat) :
    docWarns evalx cols (x :: rest) (j + 1) ↔ docWarns evalx cols rest j := by
  simp [docWarns]

theorem docWarns_cons_zero (evalx : EvalFn) (cols : List ColSelector)
    (x : Option String) (rest : List (Option String)) :
    docWarns evalx cols (x :: rest) 0 ↔
      ∃ h, x = some h ∧
        ∃ t, extract_dataframe_by_zip evalx h cols = .ok (t, true) := by
  simp [docWarns]

theorem runLoop_warn_spec (evalx : EvalFn) (cols : List ColSelector) :
    ∀ (l : List (Option String)) (i0 : Nat) ts wi,
      runLoop evalx cols l i0 = .ok (ts, wi) →
      ((wi = none → ∀ j, ¬ docWarns evalx cols l j) ∧
       (∀ k, wi = some k → i0 ≤ k ∧ docWarns evalx cols l (k - i0) ∧
         ∀ j < k - i0, ¬ docWarns evalx cols l j)) := by
  intro l
  induction l with
  | nil =>
    intro i0 ts wi hrun
    rw [runLoop] at hrun
    simp only [Except.ok.injEq, Prod.mk.injEq] at hrun
    obtain ⟨_, hwi⟩ := hrun
    subst hwi
    refine ⟨fun _ j hw => ?_, fun k hk => by cases hk⟩
    obtain ⟨h, hj, _⟩ := hw
    simp at hj
  | cons x rest ih =>
    intro i0 ts wi hrun
    cases x with
    | none =>
      rw [runLoop] at hrun
      obtain ⟨ih1, ih2⟩ := ih (i0 + 1) ts wi hrun
      refine ⟨fun hni j => ?_, fun k hk => ?_⟩
      · cases j with
        | zero => rw [docWarns_cons_zero]; rintro ⟨h, hh, -⟩; cases hh
        | succ j => rw [docWarns_cons_succ]; exact ih1 hni j
      · obtain ⟨h1, h2, h3⟩ := ih2 k hk
        refine ⟨by omega, ?_, ?_⟩
        · have heq : k - i0 = (k - (i0 + 1)) + 1 := by omega
          rw [heq, docWarns_cons_succ]; exact h2
        · intro j hj
          cases j with
          | zero => rw [docWarns_cons_zero]; rintro ⟨h, hh, -⟩; cases hh
          | succ j =>
            rw [docWarns_cons_succ]
            exact h3 j (by omega)
    | some h =>
      rw [runLoop] at hrun
      rcases hz : extract_dataframe_by_zip evalx h cols with e | ⟨t, w⟩ <;>
        rw [hz] at hrun
      · simp at hrun
      · rcases hr : runLoop evalx cols rest (i0 + 1) with e | ⟨ts', wi'⟩ <;>
          rw [hr] at hrun
        · simp at hrun
        · simp only [Except.ok.injEq, Prod.mk.injEq] at hrun
          obtain ⟨-, hwi⟩ := hrun
          obtain ⟨ih1, ih2⟩ := ih (i0 + 1) ts' wi' hr
          cases w with
          | true =>
            subst hwi
            refine ⟨fun hni => ?_, fun k hk => ?_⟩
            · simp at hni
            obtain rfl : k = i0 := by
              simpa using hk.symm
            refine ⟨le_refl _, ?_, fun j hj => absurd hj (by omega)⟩
            rw [Nat.sub_self, docWarns_cons_zero]
            exact ⟨h, rfl, t, hz⟩
          | false =>
            subst hwi
            have hnot0 : ¬ docWarns evalx cols (some h :: rest) 0 := by
              rw [docWarns_cons_zero]
              rintro ⟨h', hh', t', ht'⟩
              cases hh'
              rw [hz] at ht'
              simp at ht'
            refine ⟨fun hni j => ?_, fun k hk => ?_⟩
            · cases j with
              | zero => exact hnot0
              | succ j => rw [docWarns_cons_succ]; exact ih1 hni j
            · obtain ⟨h1, h2, h3⟩ := ih2 k hk
              refine ⟨by omega, ?_, ?_⟩
              · have heq : k - i0 = (k - (i0 + 1)) + 1 := by omega
                rw [heq, docWarns_cons_succ]; exact h2
              · intro j hj
                cases j with
                | zero => exact hnot0
                | succ j =>
                  rw [docWarns_cons_succ]
                  exact h3 j (by omega)

/-- What C5 states of the warning `extract_xpath` attaches: at most one
warning (it is an `Option`), absent iff no processed document warned, and
when present it is the 1-indexed position of the first warning document. -/
def WarnSpec (evalx : EvalFn) (cols : List ColSelector)
    (htmls : List (Option String)) (w : Option Nat) : Prop :=
  (w = none ↔ ∀ j, ¬ docWarns evalx cols htmls j) ∧
  (∀ k, w = some k → 1 ≤ k ∧ docWarns evalx cols htmls (k - 1) ∧
    ∀ j < k - 1, ¬ docWarns evalx cols htmls j)

/-- C5: a successful zip-mode run carries no length-mismatch warning when no
document mismatched, and otherwise exactly one, naming the first mismatching
document by its 1-indexed position. -/
theorem first_warning_only {τ : Type} (syntaxOk : String → Bool)
    (evalx : EvalFn) (table : τ) (htmls : List (Option String))
    (cols : List ColSelector) (t : List (String × List (Option String)))
    (w : Option Nat)
    (h : extract_xpath syntaxOk evalx table htmls cols = .out t w) :
    WarnSpec evalx cols htmls w := by
  rw [extract_xpath] at h
  rcases hv : validate syntaxOk cols [] with e | u <;> rw [hv] at h
  · simp at h
  · cases u
    by_cases hemp : cols.isEmpty
    · rw [if_pos hemp] at h; simp at h
    · rw [if_neg hemp] at h
      rcases hr : runLoop evalx cols htmls 0 with ⟨name, msg⟩ | ⟨ts, wi⟩ <;>
        rw [hr] at h
      · simp at h
      · simp only [XResult.out.injEq] at h
        obtain ⟨-, hw⟩ := h
        subst hw
        obtain ⟨ih1, ih2⟩ := runLoop_warn_spec evalx cols htmls 0 ts wi hr
        cases wi with
        | none =>
          exact ⟨iff_of_true rfl (ih1 rfl), fun k hk => by cases hk⟩
        | some m =>
          refine ⟨iff_of_false (by simp) ?_, fun k hk => ?_⟩
          · intro hall
            obtain ⟨-, h2, -⟩ := ih2 m rfl
            exact hall m (by simpa using h2)
          · obtain rfl : k = m + 1 := by simpa using hk.symm
            obtain ⟨-, h2, h3⟩ := ih2 m rfl
            refine ⟨by omega, by simpa using h2, fun j hj => ?_⟩
            exact (by simpa using h3 j (by omega))

/-- C5 witness: one document whose two columns have lengths 2 and 1; the
attached warning names document 1. -/
theorem first_warning_only_witness :
    WarnSpec (fun s _ => if s = "x" then .ok ["1", "2"] else .ok ["1"])
      [⟨"a", "x"⟩, ⟨"b", "y"⟩] [some "d"] (some 1) :=
  first_warning_only (fun _ => true)
    (fun s _ => if s = "x" then .ok ["1", "2"] else .ok ["1"]) ()
    [some "d"] [⟨"a", "x"⟩, ⟨"b", "y"⟩]
    [("a", [some "1", some "2"]), ("b", [some "1", none])] (some 1) rfl

theorem runLoop_error_spec (evalx : EvalFn) (cols : List ColSelector) :
    ∀ (l : List (Option String)) (i0 i : Nat) (h : String)
      (ename emsg : String),
      l[i]? = some (some h) →
      extract_dataframe_by_zip evalx h cols = .error (ename, emsg) →
      (∀ j < i, ∀ g, l[j]? = some (some g) →
        ∃ r, extract_dataframe_by_zip evalx g cols = .ok r) →
      runLoop evalx cols l i0 = .error (ename, emsg) := by
  intro l
  induction l with
  | nil => intro i0 i h ename emsg hi; simp at hi
  | cons x rest ih =>
    intro i0 i h ename emsg hi hfail hbefore
    cases i with
    | zero =>
      simp only [List.getElem?_cons_zero, Option.some.injEq] at hi
      subst hi
      rw [runLoop, hfail]
    | succ j =>
      simp only [List.getElem?_cons_succ] at hi
      have hrest : runLoop evalx cols rest (i0 + 1) = .error (ename, emsg) :=
        ih (i0 + 1) j h ename emsg hi hfail
          (fun j' hj' g hg =>
            hbefore (j' + 1) (by omega) g (by simpa using hg))
      cases x with
      | none => rw [runLoop]; exact hrest
      | some g =>
        obtain ⟨⟨t, w⟩, hgok⟩ := hbefore 0 (by omega) g (by simp)
        rw [runLoop, hgok, hrest]

/-- C6: if some document's evaluation raises (and all earlier documents
evaluate cleanly, pinning down which error the sequential loop hits first),
`extract_xpath` aborts and returns only the `ColumnExtractionError` naming
the offending column — never a partial table. -/
theorem eval_error_aborts_run {τ : Type} (syntaxOk : String → Bool)
    (evalx : EvalFn) (table : τ) (htmls : List (Option String))
    (cols : List ColSelector) (i : Nat) (h ename emsg : String)
    (hval : validate syntaxOk cols [] = .ok ())
    (hne : cols ≠ [])
    (hi : htmls[i]? = some (some h))
    (hfail : extract_dataframe_by_zip evalx h cols = .error (ename, emsg))
    (hbefore : ∀ j < i, ∀ g, htmls[j]? = some (some g) →
      ∃ r, extract_dataframe_by_zip evalx g cols = .ok r) :
    extract_xpath syntaxOk evalx table htmls cols =
      .err (.columnExtractionError ename emsg) := by
  rw [extract_xpath, hval]
  rw [if_neg (by simpa [List.isEmpty_iff] using hne)]
  rw [runLoop_error_spec evalx cols htmls 0 i h ename emsg hi hfail hbefore]

/-- C6 witness: the second of two documents fails to evaluate; the run
returns the `ColumnExtractionError` for column "a". -/
theorem eval_error_aborts_run_witness :
    extract_xpath (fun _ => true)
        (fun _ d => if d = "doc2" then .error "boom" else .ok ["v"]) ()
        [some "doc1", some "doc2"] [⟨"a", "p"⟩] =
      .err (.columnExtractionError "a" "boom") :=
  eval_error_aborts_run (fun _ => true)
    (fun _ d => if d = "doc2" then .error "boom" else .ok ["v"]) ()
    [some "doc1", some "doc2"] [⟨"a", "p"⟩] 1 "doc2" "a" "boom"
    rfl (by decide) rfl rfl
    (by
      intro j hj g hg
      obtain rfl : j = 0 := by omega
      simp only [List.getElem?_cons_zero, Option.some.injEq] at hg
      subst hg
      exact ⟨_, rfl⟩)

/- ### `migrate_params` -/

/-- A Python value stored in a params dict. -/
inductive PVal where
  | vstr (s : String)
  | vint (i : Int)
  | vbool (b : Bool)
deriving DecidableEq, Repr

/-- A Python dict: insertion-ordered (key, value) pairs with unique keys. -/
abbrev PDict := List (String × PVal)

/-- `{**d, k: v}` for one key: update the existing entry in place, else
append at the end (Python dict insertion order). -/
def dinsert : PDict → String → PVal → PDict
  | [], k, v => [(k, v)]
  | (k', v') :: rest, k, v =>
    if k' = k then (k, v) :: rest else (k', v') :: dinsert rest k v

/-- `d.pop(k, None)`'s effect on the dict: the entry for `k` removed. -/
def derase (d : PDict) (k : String) : PDict :=
  d.filter (fun p => p.1 ≠ k)

/-- `d[k]` as an option: the value stored under `k`, if any. -/
def dlookup : PDict → String → Option PVal
  | [], _ => none
  | (k', v) :: rest, k => if k = k' then some v else dlookup rest k

/-- `k in d`. -/
def dmem (d : PDict) (k : String) : Bool :=
  (dlookup d k).isSome

/-- `_migrate_v0_to_v1(params) = {**params, "method": "xpath", "tablenum": 1}`. -/
def _migrate_v0_to_v1 (params : PDict) : PDict :=
  dinsert (dinsert params "method" (.vstr "xpath")) "tablenum" (.vint 1)

/-- `migrate_params(params)`, with Python reference semantics made explicit:
the first component is the caller's dict after the call (Python's
`params.pop(...)` mutates it in place when the local name still refers to
the caller's object), the second is the returned dict. When `"method"` is
absent the local name is rebound to the fresh dict `_migrate_v0_to_v1`
builds, so the pop acts on that fresh dict and the caller's is untouched. -/
def migrate_params (params : PDict) : PDict × PDict :=
  if dmem params "method" then
    let r := derase params "first_row_is_header"
    (r, r)
  else
    (params, derase (_migrate_v0_to_v1 params) "first_row_is_header")

theorem dlookup_derase (d : PDict) (k k' : String) :
    dlookup (derase d k) k' = if k' = k then none else dlookup d k' := by
  induction d with
  | nil => simp [derase, dlookup]
  | cons p rest ih =>
    rcases p with ⟨pk, pv⟩
    rw [derase, List.filter_cons]
    by_cases hpk : pk = k
    · rw [if_neg (by simp [hpk])]
      rw [derase] at ih
      rw [ih]
      by_cases hk' : k' = k
      · simp [hk']
      · rw [if_neg hk', if_neg hk', dlookup,
          if_neg (fun h => hk' (h.trans hpk))]
    · rw [if_pos (by simp [hpk])]
      rw [dlookup]
      by_cases hk' : k' = pk
      · rw [if_pos hk', dlookup, if_pos hk',
          if_neg (fun h => hpk ((hk'.symm.trans h) ▸ rfl))]
      · rw [if_neg hk']
        rw [derase] at ih
        rw [ih, dlookup, if_neg hk']

theorem dlookup_dinsert (d : PDict) (k k' : String) (v : PVal) :
    dlookup (dinsert d k v) k' = if k' = k then some v else dlookup d k' := by
  induction d with
  | nil =>
    by_cases hk' : k' = k <;> simp [dinsert, dlookup, hk']
  | cons p rest ih =>
    rcases p with ⟨pk, pv⟩
    rw [dinsert]
    by_cases hpk : pk = k
    · rw [if_pos hpk, dlookup, dlookup]
      by_cases hk' : k' = k
      · rw [if_pos hk', if_pos hk']
      · rw [if_neg hk', if_neg hk', if_neg (fun h => hk' (h.trans hpk))]
    · rw [if_neg hpk, dlookup, dlookup]
      by_cases hk' : k' = pk
      · rw [if_pos hk', if_pos hk',
          if_neg (fun h => hpk ((hk'.symm.trans h) ▸ rfl))]
      · rw [if_neg hk', if_neg hk', ih]

theorem derase_of_not_mem (d : PDict) (k : String) (h : dmem d k = false) :
    derase d k = d := by
  induction d with
  | nil => simp [derase]
  | cons p rest ih =>
    rcases p with ⟨pk, pv⟩
    rw [dmem, dlookup] at h
    by_cases hpk : k = pk
    · rw [if_pos hpk] at h
      simp at h
    · rw [if_neg hpk] at h
      rw [derase, List.filter_cons,
        if_pos (by simpa using fun hp : pk = k => hpk hp.symm)]
      rw [derase] at ih
      rw [ih h]

theorem derase_length_lt (d : PDict) (k : String) (h : dmem d k = true) :
    (derase d k).length < d.length := by
  induction d with
  | nil => simp [dmem, dlookup] at h
  | cons p rest ih =>
    rcases p with ⟨pk, pv⟩
    rw [dmem, dlookup] at h
    rw [derase, List.filter_cons]
    by_cases hpk : k = pk
    · rw [if_neg (by simp [hpk.symm])]
      have : (List.filter (fun p => decide (p.1 ≠ k)) rest).length ≤
          rest.length := List.length_filter_le _ _
      simp only [List.length_cons]
      have hd : derase rest k = List.filter (fun p => decide (p.1 ≠ k)) rest := rfl
      omega
    · rw [if_neg hpk] at h
      rw [if_pos (by simpa using fun hp : pk = k => hpk hp.symm)]
      have := ih h
      rw [derase] at this
      simp only [List.length_cons]
      omega

theorem derase_ne_of_mem (d : PDict) (k : String) (h : dmem d k = true) :
    derase d k ≠ d := by
  intro heq
  have := derase_length_lt d k h
  rw [heq] at this
  omega

/-- C9 counterexample: with both `"method"` and `"first_row_is_header"`
present, `migrate_params` pops `"first_row_is_header"` out of the caller's
dict — the argument after the call differs from the argument before it, so
`migrate_params` is not pure as the claim states. -/
theorem migrate_params_not_pure :
    (migrate_params
        [("method", .vstr "xpath"), ("first_row_is_header", .vbool true)]).1 ≠
      [("method", PVal.vstr "xpath"),
       ("first_row_is_header", PVal.vbool true)] := by
  decide

/-- C9 (amended): the dict `migrate_params` returns holds the entries the
claim describes (method/tablenum defaulted when `"method"` is absent,
`"first_row_is_header"` dropped); the argument is left unmutated iff
`"method"` is absent (the fresh `_migrate_v0_to_v1` dict absorbs the pop)
or `"first_row_is_header"` is absent (the pop is a no-op) — but when both
keys are present the argument is mutated in place. -/
theorem migrate_params_spec (p : PDict) :
    (∀ k, dlookup (migrate_params p).2 k =
      if k = "first_row_is_header" then none
      else if dmem p "method" then dlookup p k
      else if k = "method" then some (.vstr "xpath")
      else if k = "tablenum" then some (.vint 1)
      else dlookup p k) ∧
    ((migrate_params p).1 = p ↔
      (dmem p "method" = false ∨ dmem p "first_row_is_header" = false)) := by
  by_cases hm : dmem p "method" = true
  · rw [migrate_params, if_pos hm]
    refine ⟨fun k => ?_, ?_⟩
    · rw [dlookup_derase, hm]
      by_cases hk1 : k = "first_row_is_header"
      · simp [hk1]
      · simp [hk1]
    · by_cases hf : dmem p "first_row_is_header" = true
      · refine iff_of_false (derase_ne_of_mem p _ hf) ?_
        rintro (h | h) <;> simp_all
      · have hf' : dmem p "first_row_is_header" = false := by simpa using hf
        exact iff_of_true (derase_of_not_mem p _ hf') (Or.inr hf')
  · have hm' : dmem p "method" = false := by simpa using hm
    rw [migrate_params, if_neg hm]
    refine ⟨fun k => ?_, ?_⟩
    · rw [dlookup_derase, _migrate_v0_to_v1, dlookup_dinsert, dlookup_dinsert,
        hm']
      by_cases hk1 : k = "first_row_is_header"
      · simp [hk1]
      · by_cases hk2 : k = "tablenum"
        · subst hk2; simp
        · by_cases hk3 : k = "method"
          · subst hk3; simp
          · simp [hk1, hk2, hk3]
    · exact iff_of_true rfl (Or.inl hm')

/- ### `select` result dispatch and html5lib whitespace serialization -/

/-- An lxml element: tag, text before the first child, child elements, and
the tail text that follows its closing tag (owned by the parent). -/
inductive HElem where
  | elem (tag : String) (text : String) (children : List HElem) (tail : String)

/-- The `tail` field of an element. -/
def HElem.tailText : HElem → String
  | .elem _ _ _ t => t

/-- html5lib treewalker tokens (only the kinds `_item_to_string` sees). -/
inductive Token where
  | startTag (name : String)
  | endTag (name : String)
  | characters (data : String)
  | spaceCharacters (data : String)
deriving DecidableEq, Repr

/-- html5lib's `spaceCharacters` set: tab, LF, FF, CR, space. -/
def isSpaceCh (c : Char) : Bool :=
  c = ' ' || c = '\t' || c = '\n' || c = '\r' || c = '\x0c'

/-- The base TreeWalker's `text()` splitting: leading whitespace as a
`SpaceCharacters` token, the middle as `Characters`, trailing whitespace as
`SpaceCharacters`; empty pieces are not emitted. -/
def textTokens (data : String) : List Token :=
  let cs := data.toList
  let left := cs.takeWhile isSpaceCh
  let mid0 := cs.dropWhile isSpaceCh
  let middle := (mid0.reverse.dropWhile isSpaceCh).reverse
  let right := (mid0.reverse.takeWhile isSpaceCh).reverse
  (if left.isEmpty then [] else [Token.spaceCharacters (String.mk left)]) ++
    (if middle.isEmpty then [] else [Token.characters (String.mk middle)]) ++
    (if right.isEmpty then [] else [Token.spaceCharacters (String.mk right)])

mutual
/-- The etree TreeWalker's token stream for an element: start tag, its text
split into tokens, the walked children (each followed by its tail text), and
the end tag. The walked root's own tail is not part of its stream. -/
def walkElem : HElem → List Token
  | .elem tag text children _ =>
    Token.startTag tag ::
      (textTokens text ++ walkList children ++ [Token.endTag tag])
/-- Walk a list of sibling elements, emitting each one's tail text after
its subtree. -/
def walkList : List HElem → List Token
  | [] => []
  | c :: rest => walkElem c ++ textTokens c.tailText ++ walkList rest
end

/-- html5lib's `spacePreserveElements`: `pre`, `textarea` and the rcdata
elements. -/
def spacePreserve (tag : String) : Bool :=
  tag = "pre" || tag = "textarea" || tag = "style" || tag = "script" ||
    tag = "xmp" || tag = "iframe" || tag = "noembed" || tag = "noframes" ||
    tag = "noscript"

/-- `collapse_spaces`: replace every run of space characters by one `' '`.
The boolean tracks whether the previous character was part of a run. -/
def collapseAux : Bool → List Char → List Char
  | _, [] => []
  | prevSpace, c :: rest =>
    if isSpaceCh c then
      if prevSpace then collapseAux true rest
      else ' ' :: collapseAux true rest
    else c :: collapseAux false rest

def collapseSpaces (s : String) : String :=
  String.mk (collapseAux false s.toList)

/-- html5lib's whitespace `Filter`: outside space-preserving elements,
non-empty `SpaceCharacters` data becomes a single space and `Characters`
data has its internal whitespace runs collapsed; `p` is the `preserve`
nesting counter. -/
def wsFilter : Nat → List Token → List Token
  | _, [] => []
  | p, Token.startTag n :: rest =>
    if p > 0 || spacePreserve n then Token.startTag n :: wsFilter (p + 1) rest
    else Token.startTag n :: wsFilter p rest
  | p, Token.endTag n :: rest =>
    if p > 0 then Token.endTag n :: wsFilter (p - 1) rest
    else Token.endTag n :: wsFilter p rest
  | p, Token.spaceCharacters d :: rest =>
    if p = 0 ∧ d ≠ "" then Token.spaceCharacters " " :: wsFilter p rest
    else Token.spaceCharacters d :: wsFilter p rest
  | p, Token.characters d :: rest =>
    if p = 0 then Token.characters (collapseSpaces d) :: wsFilter p rest
    else Token.characters d :: wsFilter p rest

/-- The data of the tokens `_item_to_string` keeps:
`token["type"] in ("Characters", "SpaceCharacters")`. -/
def tokenText : Token → List String
  | .characters d => [d]
  | .spaceCharacters d => [d]
  | _ => []

/-- Python's whitespace set for `str.strip()` (the ASCII part). -/
def isPySpace (c : Char) : Bool :=
  c = ' ' || c = '\t' || c = '\n' || c = '\r' || c = '\x0b' || c = '\x0c'

/-- Strip leading and trailing whitespace of a character list. -/
def stripChars (l : List Char) : List Char :=
  (l.dropWhile isPySpace).rdropWhile isPySpace

/-- Python `s.strip()`. -/
def pyStrip (s : String) : String :=
  String.mk (stripChars s.toList)

theorem stripChars_idem (l : List Char) :
    stripChars (stripChars l) = stripChars l := by
  rw [stripChars, stripChars]
  have hpre : (l.dropWhile isPySpace).rdropWhile isPySpace <+:
      l.dropWhile isPySpace := List.rdropWhile_prefix _ _
  have hself : ((l.dropWhile isPySpace).rdropWhile isPySpace).dropWhile
      isPySpace = (l.dropWhile isPySpace).rdropWhile isPySpace := by
    rw [List.dropWhile_eq_self_iff]
    intro hl
    obtain ⟨t, ht⟩ := hpre
    have h0 : 0 < (l.dropWhile isPySpace).length := by
      rw [← ht]
      simp only [List.length_append]
      omega
    have hq : (l.dropWhile isPySpace)[0]? =
        ((l.dropWhile isPySpace).rdropWhile isPySpace)[0]? := by
      conv_lhs => rw [← ht]
      exact List.getElem?_append_left hl
    have hS0 : ((l.dropWhile isPySpace).rdropWhile isPySpace)[0]? =
        some (((l.dropWhile isPySpace).rdropWhile isPySpace).get ⟨0, hl⟩) := by
      rw [List.getElem?_eq_getElem hl]
      simp
    have hA0 : (l.dropWhile isPySpace)[0]? =
        some ((l.dropWhile isPySpace).get ⟨0, h0⟩) := by
      rw [List.getElem?_eq_getElem h0]
      simp
    have hgeteq : ((l.dropWhile isPySpace).rdropWhile isPySpace).get ⟨0, hl⟩ =
        (l.dropWhile isPySpace).get ⟨0, h0⟩ :=
      Option.some.inj ((hS0.symm.trans hq.symm).trans hA0)
    rw [hgeteq]
    exact List.dropWhile_get_zero_not _ _ h0
  rw [hself, List.rdropWhile_idempotent]

theorem pyStrip_idem (s : String) : pyStrip (pyStrip s) = pyStrip s := by
  rw [pyStrip, pyStrip]
  have hmk : (String.mk (stripChars s.toList)).toList = stripChars s.toList :=
    rfl
  rw [hmk, stripChars_idem]

/-- One item of an XPath node-set result. -/
inductive XItem where
  | element (e : HElem)
  | attribute (value : String)
  | textNode (s : String)

/-- `_item_to_string(item)`: an element (it `hasattr itertext`) is walked,
whitespace-filtered, its text tokens joined and the result stripped;
attribute and text/tail items yield `str(item)`, their string content. -/
def _item_to_string : XItem → String
  | .element e =>
    pyStrip (String.join ((wsFilter 0 (walkElem e)).flatMap tokenText))
  | .attribute v => v
  | .textNode s => s

/-- A value as returned by an lxml XPath evaluation, as the duck-typed
Python code sees it: a node-set (a list), a boolean, a float (`count()`),
or a single string (a string literal expression). -/
inductive PyXPathResult where
  | nodeset (items : List XItem)
  | boolean (b : Bool)
  | number (x : Float)
  | string (s : String)

/-- A cell value `select` produces: a string, or a float passed through
unconverted (the `count(//a)` case). -/
inductive Cell where
  | str (s : String)
  | num (x : Float)

/-- `hasattr(result, "__iter__")`: node-sets are iterable — and so are
Python strings, which is the hazard C7 is about. -/
def pyIterable : PyXPathResult → Bool
  | .nodeset _ => true
  | .string _ => true
  | .boolean _ => false
  | .number _ => false

/-- `isinstance(result, str)`. -/
def pyIsStr : PyXPathResult → Bool
  | .string _ => true
  | _ => false

/-- `isinstance(result, bool)`. -/
def pyIsBool : PyXPathResult → Bool
  | .boolean _ => true
  | _ => false

/-- What `for item in result` would yield if the iterable branch were
taken: the node-set's items, or — for a string — its characters, each a
one-character string. -/
def pyIterate : PyXPathResult → List XItem
  | .nodeset items => items
  | .string s => s.toList.map (fun ch => .textNode (String.mk [ch]))
  | _ => []

/-- `str(b)` for a Python bool. -/
def pyBoolStr (b : Bool) : String := if b then "True" else "False"

/-- The boolean payload (only used under the `pyIsBool` guard). -/
def pyBoolVal : PyXPathResult → Bool
  | .boolean b => b
  | _ => false

/-- The final `[result]` branch. Node-set and boolean results never reach
it: they are caught by the two guards above. -/
def resultCell : PyXPathResult → List Cell
  | .string s => [.str s]
  | .number x => [.num x]
  | .nodeset _ => []
  | .boolean b => [.str (pyBoolStr b)]

/-- `select`'s dispatch on the evaluation result: iterables that are not
strings are mapped through `_item_to_string`; booleans become
`["True"]`/`["False"]`; anything else is returned as the one-element list
`[result]`. -/
def select (result : PyXPathResult) : List Cell :=
  if pyIterable result && !pyIsStr result then
    (pyIterate result).map (fun it => Cell.str (_item_to_string it))
  else if pyIsBool result then
    [Cell.str (pyBoolStr (pyBoolVal result))]
  else
    resultCell result

/-- C7: a string-typed XPath result (e.g. a string literal selector) comes
back as the one-element list holding exactly that string; the iterable
branch that would expand it character by character is not taken. -/
theorem select_string_scalar (s : String) :
    select (.string s) = [Cell.str s] := rfl

/-- C8: serialization walks the element, filters whitespace-only
indentation to single spaces, keeps the inter-tag space, joins, and strips
the ends: the document `<p>\n  hi <b> !</b>\n</p>` under `//p` yields
exactly "hi  !" (two spaces), and every serialized element equals its own
stripped form. -/
theorem element_serialization :
    _item_to_string
        (.element (.elem "p" "\n  hi " [.elem "b" " !" [] "\n"] "")) =
      "hi  !" ∧
    ∀ e : HElem, pyStrip (_item_to_string (XItem.element e)) =
      _item_to_string (XItem.element e) := by
  refine ⟨by decide, fun e => ?_⟩
  rw [_item_to_string]
  exact pyStrip_idem _

/- ### Record-mode extraction (spec §4.5) -/

/-- Python `" ".join(items)`: one single space between consecutive items,
empty string for no items. -/
def joinSpace : List String → String
  | [] => ""
  | [x] => x
  | x :: y :: rest => x ++ " " ++ joinSpace (y :: rest)

/-- Modelled from the spec: the Record Extractor (`extractByRecord`,
spec §4.5) is described by the spec but missing from the source tree,
which only ships the zip extractor. Per the spec's words: evaluate the row
selector once to obtain an ordered sequence of anchor nodes; for each
anchor evaluate every column selector with that anchor as the query
context; join multiple text results with a single space separator; zero
results give the empty string. `anchors` stands for the row selector's
result sequence and `evalAt sel a` for the column selector's text results
evaluated at anchor `a`. -/
def extract_dataframe_by_record {α : Type} (anchors : List α)
    (evalAt : String → α → List String) (cols : List ColSelector) :
    List (String × List String) :=
  cols.map (fun c =>
    (c.colname, anchors.map (fun a => joinSpace (evalAt c.colxpath a))))

/-- C3 (modelled from the spec): record mode yields one row per anchor, in
anchor order; a column selector with zero matches on an anchor gives that
cell as the empty string, and multiple matches join with exactly one
space. -/
theorem record_mode_cells {α : Type} (anchors : List α)
    (evalAt : String → α → List String) (cols : List ColSelector)
    (c : ColSelector) (hc : c ∈ cols) :
    (∀ col ∈ extract_dataframe_by_record anchors evalAt cols,
      col.2.length = anchors.length) ∧
    ((c.colname, anchors.map fun a => joinSpace (evalAt c.colxpath a)) ∈
      extract_dataframe_by_record anchors evalAt cols) ∧
    (∀ (j : Nat) (a : α), anchors[j]? = some a →
      (anchors.map fun x => joinSpace (evalAt c.colxpath x))[j]? =
        some (joinSpace (evalAt c.colxpath a))) ∧
    joinSpace [] = "" ∧
    (∀ x y : String, joinSpace [x, y] = x ++ " " ++ y) := by
  refine ⟨fun col hcol => ?_, ?_, fun j a hj => ?_, rfl, fun x y => rfl⟩
  · obtain ⟨d, hd, hcoleq⟩ := List.mem_map.mp hcol
    rw [← hcoleq]
    simp
  · exact List.mem_map_of_mem _ hc
  · rw [List.getElem?_map, hj]
    rfl

/-- C3 witness: one column over two anchors; the first anchor has two
matches joined by one space, the second has none and yields `""`. -/
theorem record_mode_cells_witness :
    (∀ col ∈ extract_dataframe_by_record ["a1", "a2"]
        (fun sel a => if sel = "p" && a = "a1"
          then ["A description", "B description"] else [])
        [⟨"c", "p"⟩],
      col.2.length = (["a1", "a2"] : List String).length) ∧
    (((⟨"c", "p"⟩ : ColSelector).colname,
        (["a1", "a2"] : List String).map fun a => joinSpace
          ((fun sel a => if sel = "p" && a = "a1"
            then ["A description", "B description"] else [])
            (⟨"c", "p"⟩ : ColSelector).colxpath a)) ∈
      extract_dataframe_by_record ["a1", "a2"]
        (fun sel a => if sel = "p" && a = "a1"
          then ["A description", "B description"] else [])
        [⟨"c", "p"⟩]) ∧
    (∀ (j : Nat) (a : String), (["a1", "a2"] : List String)[j]? = some a →
      ((["a1", "a2"] : List String).map fun x => joinSpace
          ((fun sel a => if sel = "p" && a = "a1"
            then ["A description", "B description"] else [])
            (⟨"c", "p"⟩ : ColSelector).colxpath x))[j]? =
        some (joinSpace
          ((fun sel a => if sel = "p" && a = "a1"
            then ["A description", "B description"] else [])
            (⟨"c", "p"⟩ : ColSelector).colxpath a))) ∧
    joinSpace [] = "" ∧
    (∀ x y : String, joinSpace [x, y] = x ++ " " ++ y) :=
  record_mode_cells ["a1", "a2"]
    (fun sel a => if sel = "p" && a = "a1"
      then ["A description", "B description"] else [])
    [⟨"c", "p"⟩] ⟨"c", "p"⟩ (by decide)

end XPathExtractor
